import Mathlib

/-!
# Verification of the target-description merge engine (`load.py`)

Shallow embedding of `src/load.py`: a YAML-backed, memoizing document cache
(`YamlCacher`), a per-target merge engine (`Merger._load`) with cycle
detection, a registry of per-field checkers (`check_*` methods), and a
finalize pass (`Merger.verify`) that fills defaults and asserts a cross-field
invariant.

Modelling decisions, all taken from the source:

* Python lists are mutable heap objects and the code mutates one in place
  (`check_cpp` does `old_val.extend(val)`), so lists are modelled as
  addresses (`Val.vlist a`) into an explicit heap of `List String`.  All
  lists occurring in these documents (import lists, `triples`, `variants`,
  `cpp`) hold strings, so heap cells are `List String`.
* A parsed document (`OrderedDict`) maps string keys to strings or lists.
  The external parser is the environment `Env.docs : String → Option PDoc`;
  `load_file` allocates the document's lists into the heap on a cache miss
  and memoizes the result, exactly as `YamlCacher.load_file` memoizes the
  parsed object.
* Python `None` is `Option.none` at checker boundaries; `check_arch` has no
  `return` statement and therefore stores Python `None` in the merged dict,
  modelled as `Val.vnone`.  `dict.get` on such an entry returns `None`,
  hence `pyGet` folds `vnone` back to `none`, while `key in dict` still
  sees the key: `keys` keeps it.
* Python exceptions are an error type `Err`.  `AssertionError`s raised by
  checkers carry their (optional) message and are `validationError`; the
  recursion-guard assertion is `cycleError`; the `KeyError('Invalid key …')`
  for an unregistered field is `unknownFieldError`; `verify`'s final assert
  is `invariantError`; a parse/IO failure in the external loader is
  `parseError`; `val[0]` on an empty list is `indexError`; the dict lookup
  in `_bool_check` is `keyError`; operations Python would reject with a
  `TypeError` (unhashable key, `.extend`/`.replace` on the wrong type) are
  `typeError`.
* Recursion is paced by fuel (`Nat`), structurally, so everything reduces in
  the kernel; `outOfFuel` is a model artifact that never occurs at adequate
  fuel.
* The `cpp_regex` of the source
  (`term ( || term)*`, `term = [?]?(id | id == atom)`,
  `atom = id | int-literal`, all joined by single-space ` || ` / ` == `)
  is transliterated as a tokenizer on spaces plus a term grammar: no regex
  atom may contain a space, `|` or `=`, so full-matching the regex is
  exactly: split on single spaces, then parse `tok (== tok)? (|| …)*`.
-/

namespace Targets

/-- A runtime value as the merger sees it: a string, a bool (only produced by
`_bool_check`), a heap reference to a list of strings, or Python `None`
(only produced by `check_arch`, which lacks a `return`). -/
inductive Val where
  | vstr (s : String)
  | vbool (b : Bool)
  | vlist (a : Nat)
  | vnone
deriving DecidableEq

/-- A parsed (pre-allocation) document value: what the YAML parser produces. -/
inductive PVal where
  | pstr (s : String)
  | plist (l : List String)
deriving DecidableEq

/-- A document after its lists are allocated into the heap. -/
abbrev Doc := List (String × Val)

/-- A parsed document as delivered by the external parser. -/
abbrev PDoc := List (String × PVal)

/-- The list heap: address `a` holds `heap[a]`. -/
abbrev Heap := List (List String)

/-- The error kinds; each carries the Python exception's message when the
source supplies one (a bare `assert` carries `none`). -/
inductive Err where
  | parseError (msg : Option String)
  | cycleError (msg : Option String)
  | unknownFieldError (msg : Option String)
  | validationError (msg : Option String)
  | invariantError (msg : Option String)
  | indexError (msg : Option String)
  | keyError (msg : Option String)
  | typeError (msg : Option String)
  | outOfFuel
deriving DecidableEq

/-- The external world: the parser/filesystem behind `YamlCacher`
(`docs`) and `os.path.exists` (`fileExists`). -/
structure Env where
  docs : String → Option PDoc
  fileExists : String → Bool

/-- The mutable state of one process: the list heap, the `YamlCacher._cache`,
and the current `Merger`'s `_merged_dict`, `_done` set and `_blacklist`
stack. -/
structure St where
  heap : Heap
  cache : List (String × Doc)
  merged : List (String × Val)
  done : List String
  blacklist : List String
deriving DecidableEq

/-! ## Small helpers over association lists, the heap and Python semantics -/

/-- Association-list lookup (dict lookup by string key). -/
def slookup {β : Type} : List (String × β) → String → Option β
  | [], _ => none
  | (k, v) :: rest, key => if k = key then some v else slookup rest key

/-- The key sequence of an ordered dict. -/
def keys {β : Type} (m : List (String × β)) : List String := m.map Prod.fst

/-- `OrderedDict` assignment: update in place if present, else append. -/
def mergedSet {β : Type} : List (String × β) → String → β → List (String × β)
  | [], key, v => [(key, v)]
  | (k, v0) :: rest, key, v =>
    if k = key then (key, v) :: rest else (k, v0) :: mergedSet rest key v

/-- `self._merged_dict.get(key)`: a stored Python `None` (from `check_arch`)
is indistinguishable from absence. -/
def pyGet (m : List (String × Val)) (key : String) : Option Val :=
  match slookup m key with
  | some .vnone => none
  | some v => some v
  | none => none

/-- Read a heap cell. -/
def heapGet (h : Heap) (a : Nat) : List String := h.getD a []

/-- Overwrite a heap cell (in-place list mutation). -/
def heapSet (h : Heap) (a : Nat) (l : List String) : Heap := h.set a l

/-- The single-quote character, for Python `repr` of strings. -/
def sq : Char := '\x27'

/-- Python `repr` of a simple string (no escaping needed for the strings this
program formats). -/
def pyRepr (s : String) : String := String.mk (sq :: s.data ++ [sq])

/-- Python type name of a checker argument, for `check_cpp`'s
`assert isinstance(val, list), type(val)`. -/
def typeName : Option Val → String
  | none => "NoneType"
  | some (.vstr _) => "str"
  | some (.vbool _) => "bool"
  | some (.vlist _) => "list"
  | some .vnone => "NoneType"

/-- Python truthiness of a merged value. -/
def pyTruthy (h : Heap) : Val → Bool
  | .vstr s => s ≠ ""
  | .vbool b => b
  | .vlist a => (heapGet h a).length ≠ 0
  | .vnone => false

/-- Python `len` (defined for strings and lists). -/
def pyLen (h : Heap) : Val → Option Nat
  | .vstr s => some s.length
  | .vlist a => some (heapGet h a).length
  | _ => none

/-- Split a character list on every occurrence of one character
(Python `str.split(c)` semantics, empty pieces preserved). -/
def splitChar (c : Char) : List Char → List Char → List String
  | [], acc => [String.mk acc.reverse]
  | x :: rest, acc =>
    if x = c then String.mk acc.reverse :: splitChar c rest []
    else splitChar c rest (x :: acc)

/-- `os.path.basename` for the slash-separated names this program uses. -/
def basename (p : String) : String := (splitChar '/' p.data []).getLastD p

/-- `name[:-len('.yml')] if name.endswith('.yml') else name`. -/
def stripYml (s : String) : String :=
  if (['.', 'y', 'm', 'l'] : List Char).isSuffixOf s.data then
    String.mk (s.data.take (s.data.length - 4))
  else s

/-- `val.replace('.', '_')` for a one-character pattern. -/
def replaceDot (s : String) : String :=
  String.mk (s.data.map (fun c => if c = '.' then '_' else c))

/-! ## The `cpp_regex` grammar -/

def isIdStart (c : Char) : Bool := c.isAlpha || c = '_'

def isIdChar (c : Char) : Bool := c.isAlpha || c = '_' || c.isDigit

/-- `cpp_regex_id = [A-Za-z_][A-Za-z_0-9]*`. -/
def isId : List Char → Bool
  | [] => false
  | c :: rest => isIdStart c && rest.all isIdChar

/-- `0[Bb][01]+`. -/
def isBinLit : List Char → Bool
  | '0' :: b :: ds => (b = 'B' || b = 'b') && !ds.isEmpty &&
      ds.all (fun c => c = '0' || c = '1')
  | _ => false

/-- `0[0-7]*`. -/
def isOctLit : List Char → Bool
  | '0' :: ds => ds.all (fun c => '0' ≤ c && c ≤ '7')
  | _ => false

/-- `[1-9][0-9]*`. -/
def isDecLit : List Char → Bool
  | c :: ds => ('1' ≤ c && c ≤ '9') && ds.all Char.isDigit
  | [] => false

/-- `0[Xx][0-9A-Fa-f]+`. -/
def isHexLit : List Char → Bool
  | '0' :: x :: ds => (x = 'X' || x = 'x') && !ds.isEmpty &&
      ds.all (fun c => c.isDigit || ('A' ≤ c && c ≤ 'F') || ('a' ≤ c && c ≤ 'f'))
  | _ => false

/-- `cpp_regex_int`, the alternation of the four literal forms. -/
def isIntLit (cs : List Char) : Bool :=
  isBinLit cs || isOctLit cs || isDecLit cs || isHexLit cs

/-- `cpp_regex_atom = id | int`. -/
def isAtomTok (t : String) : Bool := isId t.data || isIntLit t.data

/-- The head of a `cpp_regex_term`: an optional `?` then an identifier. -/
def isTermHead (t : String) : Bool :=
  match t.data with
  | '?' :: rest => isId rest
  | cs => isId cs

/-- `cpp_regex_alts` over the space-token list: `term ( || term)*` with
`term = head | head == atom`.  No atom may contain a space, `|` or `=`,
so full-matching the regex equals parsing the space-separated tokens. -/
def parseAlts : List String → Bool
  | a :: "==" :: b :: "||" :: rest => isTermHead a && isAtomTok b && parseAlts rest
  | [a, "==", b] => isTermHead a && isAtomTok b
  | a :: "||" :: rest => isTermHead a && parseAlts rest
  | [a] => isTermHead a
  | _ => false

/-- `cpp_regex.fullmatch(v)` as a boolean. -/
def cpp_regex (s : String) : Bool := parseAlts (splitChar ' ' s.data [])

/-! ## The checkers (`Merger.check_*` and the shared `_*_check` methods) -/

/-- `Merger._optional_unique_check`. -/
def optional_unique_check (_key : String) (val old_val : Option Val) :
    Except Err Val :=
  match old_val with
  | some _ => .error (.validationError none)
  | none =>
    match val with
    | none => .ok (.vstr "")
    | some (.vstr s) => .ok (.vstr s)
    | some _ => .error (.validationError none)

/-- `Merger._simple_unique_check`. -/
def simple_unique_check (tname key : String) (val old_val : Option Val) :
    Except Err Val :=
  match old_val with
  | some _ => .error (.validationError (some (pyRepr key ++ " not unique for " ++ tname)))
  | none =>
    match val with
    | none => .error (.validationError (some (pyRepr key ++ " not defined for " ++ tname)))
    | some (.vstr s) => .ok (.vstr s)
    | some _ => .error (.validationError none)

/-- `Merger._simple_override_check`: no uniqueness assertion, last writer wins. -/
def simple_override_check (tname key : String) (val _old_val : Option Val) :
    Except Err Val :=
  match val with
  | none => .error (.validationError (some (pyRepr key ++ " not defined for " ++ tname)))
  | some (.vstr s) => .ok (.vstr s)
  | some _ => .error (.validationError none)

/-- `Merger._bool_check`: `{'true': True, 'false': False}[val]`, absent
defaults to `False`. -/
def bool_check (_key : String) (val _old_val : Option Val) : Except Err Val :=
  match val with
  | none => .ok (.vbool false)
  | some (.vstr s) =>
    if s = "true" then .ok (.vbool true)
    else if s = "false" then .ok (.vbool false)
    else .error (.keyError (some (pyRepr s)))
  | some (.vlist _) => .error (.typeError (some "unhashable type: list"))
  | some (.vbool b) => .error (.keyError (some (if b then "True" else "False")))
  | some .vnone => .ok (.vbool false)

/-- `Merger.check_triples`.  Note the source indexes `val[0]` before checking
anything about the length, so an empty list raises `IndexError`. -/
def check_triples (tname : String) (blacklist : List String) (h : Heap)
    (val old_val : Option Val) : Except Err Val :=
  match old_val with
  | some _ => .error (.validationError none)
  | none =>
    match val with
    | some (.vlist a) =>
      match heapGet h a with
      | [] => .error (.indexError (some "list index out of range"))
      | t0 :: _ =>
        if t0 ≠ tname then
          .error (.validationError
            (some ("Mismatch triple " ++ pyRepr t0 ++ " in file " ++ pyRepr tname)))
        else if blacklist.length ≠ 1 then
          .error (.validationError (some "triple must be in top file"))
        else if ("triple/" ++ tname) ≠ blacklist.getLastD "" then
          .error (.validationError none)
        else if ¬ (heapGet h a).Nodup then
          .error (.validationError (some ("Duplicate aliases in " ++ tname)))
        else .ok (.vlist a)
    | _ => .error (.validationError none)

/-- `Merger.check_variants`.  When the value is absent the checker
allocates the fresh one-element list `[self._name]`. -/
def check_variants (tname : String) (fileExists : String → Bool) (h : Heap)
    (val old_val : Option Val) : Except Err (Val × Heap) :=
  match val with
  | none => .ok (.vlist h.length, h ++ [[tname]])
  | some v =>
    match old_val with
    | some _ => .error (.validationError none)
    | none =>
      match v with
      | .vlist a =>
        if ¬ (heapGet h a).Nodup then .error (.validationError none)
        else if tname ∉ heapGet h a then .error (.validationError (some tname))
        else
          match (heapGet h a).find? (fun o => !fileExists ("triple/" ++ o ++ ".yml")) with
          | some o => .error (.validationError (some o))
          | none => .ok (.vlist a, h)
      | _ => .error (.validationError none)

/-- `Merger.check_arch`.  The source method has no `return` statement: on
success Python returns `None`, modelled as `Val.vnone`. -/
def check_arch (tname : String) (blacklist : List String) (key : String)
    (val old_val : Option Val) : Except Err Val :=
  match old_val with
  | some _ => .error (.validationError (some (pyRepr key ++ " not unique for " ++ tname)))
  | none =>
    match val with
    | none => .error (.validationError (some (pyRepr key ++ " not defined for " ++ tname)))
    | some (.vstr s) =>
      match blacklist.getLast? with
      | none => .error (.indexError (some "list index out of range"))
      | some top =>
        if ("arch/" ++ replaceDot s) = top then .ok .vnone
        else .error (.validationError (some top))
    | some _ => .error (.typeError none)

/-- `Merger.check_endian`: must be defined and one of `little`/`big`; the
enumeration assert is bare (no message). -/
def check_endian (key : String) (val _old_val : Option Val) : Except Err Val :=
  match val with
  | none => .error (.validationError (some (pyRepr key ++ " not defined")))
  | some (.vstr s) =>
    if s = "little" || s = "big" then .ok (.vstr s)
    else .error (.validationError none)
  | some (.vlist _) => .error (.typeError (some "unhashable type: list"))
  | some _ => .error (.validationError none)

/-- `Merger.check_cpp`: each element must full-match `cpp_regex`; the new
list is folded into the previous merged value with an in-place
`old_val.extend(val)`, mutating the heap cell the merged record (and the
document that first supplied it) points to. -/
def check_cpp (h : Heap) (val old_val : Option Val) : Except Err (Val × Heap) :=
  match val with
  | some (.vlist a) =>
    match (heapGet h a).find? (fun v => ! cpp_regex v) with
    | some v => .error (.validationError (some v))
    | none =>
      match old_val with
      | some (.vlist b) => .ok (.vlist b, heapSet h b (heapGet h b ++ heapGet h a))
      | none => .ok (.vlist a, h)
      | some _ => .error (.typeError none)
  | v => .error (.validationError (some (typeName v)))

/-- The checker registry: `getattr(self, 'check_' + key, None)`, i.e. the
naming-convention dispatch over the class's `check_*` methods.  Checkers
that need the instance state receive the target name, the blacklist and the
heap; `check_variants` additionally consults `os.path.exists`. -/
def applyChecker (env : Env) (tname : String) (blacklist : List String) (h : Heap)
    (key : String) (val old_val : Option Val) : Option (Except Err (Val × Heap)) :=
  match key with
  | "arch" => some ((check_arch tname blacklist key val old_val).map (fun v => (v, h)))
  | "cpp" => some (check_cpp h val old_val)
  | "default_char_sign" =>
    some ((simple_override_check tname key val old_val).map (fun v => (v, h)))
  | "endian" => some ((check_endian key val old_val).map (fun v => (v, h)))
  | "freestanding" => some ((bool_check key val old_val).map (fun v => (v, h)))
  | "int" | "kernel" | "libc" | "long" | "long_long"
  | "obj" | "ptr" | "reg" | "short" | "size" =>
    some ((simple_override_check tname key val old_val).map (fun v => (v, h)))
  | "triples" => some ((check_triples tname blacklist h val old_val).map (fun v => (v, h)))
  | "variant_flags" => some ((optional_unique_check key val old_val).map (fun v => (v, h)))
  | "variants" => some (check_variants tname env.fileExists h val old_val)
  | _ => none

/-- The registered field names, in the order `verify` enumerates them:
`sorted(dir(self))` filtered to the `check_` prefix. -/
def registered_fields : List String :=
  ["arch", "cpp", "default_char_sign", "endian", "freestanding", "int", "kernel",
   "libc", "long", "long_long", "obj", "ptr", "reg", "short", "size", "triples",
   "variant_flags", "variants"]

/-! ## The cacher and the merge engine -/

/-- Allocate one parsed value. -/
def allocVal (h : Heap) : PVal → Val × Heap
  | .pstr s => (.vstr s, h)
  | .plist l => (.vlist h.length, h ++ [l])

/-- Allocate a parsed document's lists into the heap, in document order. -/
def allocDoc (h : Heap) : PDoc → Doc × Heap
  | [] => ([], h)
  | (k, pv) :: rest =>
    let (v, h1) := allocVal h pv
    let (d, h2) := allocDoc h1 rest
    ((k, v) :: d, h2)

/-- `YamlCacher.load_file`: return the memoized document, or parse, memoize
and return.  A missing or malformed file is the external `parseError`. -/
def load_file (env : Env) (fn : String) (s : St) : Except Err (Doc × St) :=
  match slookup s.cache fn with
  | some d => .ok (d, s)
  | none =>
    match env.docs fn with
    | none => .error (.parseError (some fn))
    | some pd =>
      let (d, h) := allocDoc s.heap pd
      .ok (d, { s with heap := h, cache := s.cache ++ [(fn, d)] })

/-- The work items of `Merger._load`, defunctionalized so the recursion is
structural in the fuel: `.doc name` is a `_load(name)` call, `.fields fn d`
the loop over `od.items()`, `.imports ns` the inner loop over an `import`
list. -/
inductive Job where
  | doc (name : String)
  | fields (fn : String) (d : Doc)
  | imports (ns : List String)

/-- `Merger._load` (with `tname = self._name`).  Follows the source line by
line: the `_done` short-circuit, the `'.' not in name` assert, the blacklist
(cycle) assert, push, fetch through the cacher, the field loop (imports
recursed in order, other keys dispatched through `applyChecker` with
`old_val = self._merged_dict.get(key)`), pop, and the `_done.add`. -/
def run (env : Env) (tname : String) : Nat → Job → St → Except Err St
  | 0, _, _ => .error .outOfFuel
  | n + 1, .doc name, s =>
    if name ∈ s.done then .ok s
    else if name.data.contains '.' then .error (.validationError (some name))
    else if name ∈ s.blacklist then .error (.cycleError none)
    else
      match load_file env (name ++ ".yml") { s with blacklist := s.blacklist ++ [name] } with
      | .error e => .error e
      | .ok (d, s2) =>
        match run env tname n (.fields (name ++ ".yml") d) s2 with
        | .error e => .error e
        | .ok s3 =>
          .ok { s3 with blacklist := s3.blacklist.dropLast,
                        done := if name ∈ s3.done then s3.done else s3.done ++ [name] }
  | _ + 1, .fields _ [], s => .ok s
  | n + 1, .fields fn ((key, v) :: rest), s =>
    if key = "import" then
      match v with
      | .vlist a =>
        match run env tname n (.imports (heapGet s.heap a)) s with
        | .error e => .error e
        | .ok s1 => run env tname n (.fields fn rest) s1
      | _ => .error (.validationError none)
    else
      match applyChecker env tname s.blacklist s.heap key (some v) (pyGet s.merged key) with
      | none =>
        .error (.unknownFieldError (some ("Invalid key " ++ pyRepr key ++ " in " ++ pyRepr fn)))
      | some (.error e) => .error e
      | some (.ok (v1, h1)) =>
        run env tname n (.fields fn rest)
          { s with heap := h1, merged := mergedSet s.merged key v1 }
  | _ + 1, .imports [], s => .ok s
  | n + 1, .imports (m :: ms), s =>
    match run env tname n (.doc m) s with
    | .error e => .error e
    | .ok s1 => run env tname n (.imports ms) s1

/-- One step of `verify`'s defaulting loop: if `key` is absent from the
merged dict, call its checker with `val = None, old_val = None` and store
the result. -/
def stepDefault (env : Env) (tname : String) (key : String) (s : St) :
    Except Err St :=
  if key ∈ keys s.merged then .ok s
  else
    match applyChecker env tname s.blacklist s.heap key none none with
    | none => .error (.unknownFieldError none)
    | some (.error e) => .error e
    | some (.ok (v, h)) =>
      .ok { s with heap := h, merged := mergedSet s.merged key v }

/-- `verify`'s defaulting loop over the registered fields. -/
def foldDefaults (env : Env) (tname : String) : List String → St → Except Err St
  | [], s => .ok s
  | k :: rest, s =>
    match stepDefault env tname k s with
    | .error e => .error e
    | .ok s1 => foldDefaults env tname rest s1

/-- `verify`'s final cross-field assert:
`(len(merged['variants']) > 1) <= (merged['freestanding'] or
bool(merged['variant_flags'])), self._name`, with Python's lookup,
`len`, truthiness, short-circuit `or` and bool comparison semantics. -/
def invariantCheck (tname : String) (s : St) : Except Err St :=
  match slookup s.merged "variants" with
  | none => .error (.keyError (some (pyRepr "variants")))
  | some v =>
    match pyLen s.heap v with
    | none => .error (.typeError none)
    | some n =>
      match slookup s.merged "freestanding" with
      | none => .error (.keyError (some (pyRepr "freestanding")))
      | some f =>
        if pyTruthy s.heap f then
          match f with
          | .vbool b => if decide (1 < n) && !b then .error (.invariantError (some tname))
                        else .ok s
          | _ => .error (.typeError none)
        else
          match slookup s.merged "variant_flags" with
          | none => .error (.keyError (some (pyRepr "variant_flags")))
          | some vf =>
            if decide (1 < n) && !(pyTruthy s.heap vf) then
              .error (.invariantError (some tname))
            else .ok s

/-- `Merger.verify`: default every registered field that is still missing,
then assert the variants/freestanding/variant-flags invariant. -/
def verify (env : Env) (tname : String) (s : St) : Except Err St :=
  match foldDefaults env tname registered_fields s with
  | .error e => .error e
  | .ok s1 => invariantCheck tname s1

/-- The shared, mutable part of the process: the heap and the
`YamlCacher` cache, which persist across sequential `load` calls. -/
structure CacheSt where
  heap : Heap
  cache : List (String × Doc)
deriving DecidableEq

/-- A fresh `Merger` over an existing cacher state. -/
def initSt (cs : CacheSt) : St :=
  { heap := cs.heap, cache := cs.cache, merged := [], done := [], blacklist := [] }

/-- `load(cacher, name)`: strip a `.yml` suffix, make a fresh `Merger`
(whose `_name` is the basename), `_load('misc/default')`, `_load(name)`,
then `verify`. -/
def load (env : Env) (fuel : Nat) (name0 : String) (cs : CacheSt) : Except Err St :=
  match run env (basename (stripYml name0)) fuel (.doc "misc/default") (initSt cs) with
  | .error e => .error e
  | .ok s1 =>
    match run env (basename (stripYml name0)) fuel (.doc (stripYml name0)) s1 with
    | .error e => .error e
    | .ok s2 => verify env (basename (stripYml name0)) s2

/-! ## Observations on results -/

/-- A merged value with its heap reference resolved. -/
inductive RVal where
  | rstr (s : String)
  | rbool (b : Bool)
  | rlist (l : List String)
  | rnone
deriving DecidableEq

/-- Resolve a value through the heap. -/
def resolveVal (h : Heap) : Val → RVal
  | .vstr s => .rstr s
  | .vbool b => .rbool b
  | .vlist a => .rlist (heapGet h a)
  | .vnone => .rnone

/-- The resolved value of a field in a merger state's record. -/
def recordVal (s : St) (key : String) : Option RVal :=
  (slookup s.merged key).map (resolveVal s.heap)

/-- The resolved value of a field of a successful load's record. -/
def resultVal (r : Except Err St) (key : String) : Option RVal :=
  match r with
  | .ok s => recordVal s key
  | .error _ => none

/-- The error of a failed load, if any. -/
def resultErr (r : Except Err St) : Option Err :=
  match r with
  | .ok _ => none
  | .error e => some e

/-- Did the load succeed? -/
def isOk (r : Except Err St) : Bool :=
  match r with
  | .ok _ => true
  | .error _ => false

/-- Did the load fail with a checker `AssertionError` (a validation error)? -/
def isValidationError (r : Except Err St) : Bool :=
  match r with
  | .error (.validationError _) => true
  | _ => false

/-- The merged record of a successful load (empty on failure). -/
def recordOf (r : Except Err St) : List (String × Val) :=
  match r with
  | .ok s => s.merged
  | .error _ => []

/-- The cacher state left behind by a load, for the next sequential load. -/
def cacheOf (r : Except Err St) : CacheSt :=
  match r with
  | .ok s => { heap := s.heap, cache := s.cache }
  | .error _ => { heap := [], cache := [] }

/-- A cached document's field, resolved through the heap: what a later load
will observe for that document. -/
def cachedDocVal (cs : CacheSt) (fn key : String) : Option RVal :=
  match slookup cs.cache fn with
  | none => none
  | some d => (slookup d key).map (resolveVal cs.heap)

/-! ## Concrete document sets used by the claim instances

`baseFields` supplies the twelve override-family fields every successful
load must define (their defaulting asserts `val is not None`). -/

def baseFields : PDoc :=
  [("endian", .pstr "little"), ("kernel", .pstr "linux"), ("libc", .pstr "gnu"),
   ("default_char_sign", .pstr "signed"), ("short", .pstr "16"), ("int", .pstr "32"),
   ("long", .pstr "32"), ("long_long", .pstr "64"), ("size", .pstr "32"),
   ("ptr", .pstr "32"), ("reg", .pstr "32"), ("obj", .pstr "elf")]

/-- Two well-formed targets `triple/a` and `triple/b`; the shared base
document `misc/default` contributes `cpp: [DEF]`, and `triple/a` adds
`cpp: [AAA]`. -/
def docsC1 : String → Option PDoc := fun n =>
  if n = "misc/default.yml" then some [("cpp", .plist ["DEF"])]
  else if n = "arch/x.yml" then some [("arch", .pstr "x")]
  else if n = "triple/a.yml" then some
    ([("import", .plist ["arch/x"]), ("triples", .plist ["a"]),
      ("cpp", .plist ["AAA"])] ++ baseFields)
  else if n = "triple/b.yml" then some
    ([("import", .plist ["arch/x"]), ("triples", .plist ["b"])] ++ baseFields)
  else none

def envC1 : Env := ⟨docsC1, fun _ => false⟩

/-- The first load of a two-load sequence sharing one cacher. -/
def loadA : Except Err St := load envC1 40 "triple/a" ⟨[], []⟩

/-- A well-formed target that never defines `cpp`. -/
def docsC2 : String → Option PDoc := fun n =>
  if n = "misc/default.yml" then some []
  else if n = "arch/x.yml" then some [("arch", .pstr "x")]
  else if n = "triple/c2.yml" then some
    ([("import", .plist ["arch/x"]), ("triples", .plist ["c2"])] ++ baseFields)
  else none

def envC2 : Env := ⟨docsC2, fun _ => false⟩

/-- A target importing `arch/x` and then `arch/y`, so `arch` is defined by
two different documents. -/
def docsC3 : String → Option PDoc := fun n =>
  if n = "misc/default.yml" then some []
  else if n = "arch/x.yml" then some [("arch", .pstr "x")]
  else if n = "arch/y.yml" then some [("arch", .pstr "y")]
  else if n = "triple/d.yml" then some
    ([("import", .plist ["arch/x", "arch/y"]), ("triples", .plist ["d"]),
      ("cpp", .plist [])] ++ baseFields)
  else none

def envC3 : Env := ⟨docsC3, fun _ => false⟩

/-- A target whose `triples` field is the empty list. -/
def docsTE : String → Option PDoc := fun n =>
  if n = "misc/default.yml" then some []
  else if n = "triple/e.yml" then some [("triples", .plist [])]
  else none

def envTE : Env := ⟨docsTE, fun _ => false⟩

/-- A diamond: `triple/t` imports `misc/a` and `misc/b`, both of
which import `misc/c`; `misc/c` defines the unique-optional
`variant_flags`, which would raise a not-unique error if folded in twice. -/
def docsC5 : String → Option PDoc := fun n =>
  if n = "misc/default.yml" then some []
  else if n = "misc/a.yml" then some [("import", .plist ["misc/c"])]
  else if n = "misc/b.yml" then some [("import", .plist ["misc/c"])]
  else if n = "misc/c.yml" then some [("variant_flags", .pstr "vf")]
  else if n = "arch/x.yml" then some [("arch", .pstr "x")]
  else if n = "triple/t.yml" then some
    ([("import", .plist ["misc/a", "misc/b", "arch/x"]), ("triples", .plist ["t"]),
      ("cpp", .plist [])] ++ baseFields)
  else none

def envC5 : Env := ⟨docsC5, fun _ => false⟩

/-- A self-importing document. -/
def docsC6a : String → Option PDoc := fun n =>
  if n = "misc/default.yml" then some []
  else if n = "triple/s.yml" then some [("import", .plist ["triple/s"])]
  else none

def envC6a : Env := ⟨docsC6a, fun _ => false⟩

/-- A mutually-importing pair: `misc/x` imports `misc/y` and vice versa. -/
def docsC6b : String → Option PDoc := fun n =>
  if n = "misc/default.yml" then some []
  else if n = "misc/x.yml" then some [("import", .plist ["misc/y"])]
  else if n = "misc/y.yml" then some [("import", .plist ["misc/x"])]
  else none

def envC6b : Env := ⟨docsC6b, fun _ => false⟩

/-- A target `triple/v` with a two-element variant list, optionally extended
with one of the two signal fields. -/
def tripleV (extra : PDoc) : PDoc :=
  [("import", .plist ["arch/x"]), ("triples", .plist ["v"]), ("cpp", .plist []),
   ("variants", .plist ["v", "w"])] ++ extra ++ baseFields

def docsC7 (extra : PDoc) : String → Option PDoc := fun n =>
  if n = "misc/default.yml" then some []
  else if n = "arch/x.yml" then some [("arch", .pstr "x")]
  else if n = "triple/v.yml" then some (tripleV extra)
  else none

def exC7 : String → Bool := fun n => n = "triple/v.yml" || n = "triple/w.yml"

def envC7f : Env := ⟨docsC7 [], exC7⟩

def envC7a : Env := ⟨docsC7 [("freestanding", .pstr "true")], exC7⟩

def envC7b : Env := ⟨docsC7 [("variant_flags", .pstr "vfx")], exC7⟩

/-- The empty environment: no documents, no files. -/
def env0 : Env := ⟨fun _ => none, fun _ => false⟩

/-! ## General lemmas: the merged dict, the defaulting pass, the engine -/

theorem keys_mergedSet {β : Type} (m : List (String × β)) (k : String) (v : β) :
    keys (mergedSet m k v) = if k ∈ keys m then keys m else keys m ++ [k] := by
  induction m with
  | nil => simp [mergedSet, keys]
  | cons p rest ih =>
    obtain ⟨k0, v0⟩ := p
    by_cases h : k0 = k
    · subst h; simp [mergedSet, keys]
    · have hne : k ≠ k0 := fun he => h he.symm
      simp only [keys] at ih ⊢
      simp only [mergedSet, if_neg h, List.map_cons]
      rw [ih]
      by_cases hm : k ∈ List.map Prod.fst rest
      · rw [if_pos hm, if_pos (List.mem_cons_of_mem _ hm)]
      · rw [if_neg hm, if_neg (by simp [List.mem_cons, hne, hm]), List.cons_append]

theorem slookup_mergedSet_self {β : Type} (m : List (String × β)) (k : String) (v : β) :
    slookup (mergedSet m k v) k = some v := by
  induction m with
  | nil => simp [mergedSet, slookup]
  | cons p rest ih =>
    obtain ⟨k0, v0⟩ := p
    by_cases h : k0 = k
    · subst h; simp [mergedSet, slookup]
    · simp [mergedSet, slookup, h, ih]

theorem nodup_keys_mergedSet {β : Type} {m : List (String × β)} (k : String) (v : β)
    (h : (keys m).Nodup) : (keys (mergedSet m k v)).Nodup := by
  rw [keys_mergedSet]
  split
  · exact h
  · next hk => simp [List.nodup_append, h, hk]

theorem getD_append_length (l : List (List String)) (x : List String) :
    (l ++ [x]).getD l.length [] = x := by
  induction l with
  | nil => rfl
  | cons a rest ih =>
    simp only [List.cons_append, List.length_cons, List.getD_cons_succ]
    exact ih

theorem load_file_merged {env : Env} {fn : String} {s : St} {d : Doc} {s' : St}
    (h : load_file env fn s = .ok (d, s')) :
    s'.merged = s.merged := by
  unfold load_file at h
  split at h
  · cases h; rfl
  · split at h
    · exact Except.noConfusion h
    · cases h; rfl

theorem run_preserves_nodup (env : Env) (tname : String) :
    ∀ (n : Nat) (job : Job) (s s' : St), run env tname n job s = .ok s' →
      (keys s.merged).Nodup → (keys s'.merged).Nodup := by
  intro n
  induction n with
  | zero => intro job s s' h _; simp [run] at h
  | succ n ih =>
    intro job s s' h hn
    cases job with
    | doc name =>
      simp only [run] at h
      split at h
      · cases h; exact hn
      · split at h
        · exact Except.noConfusion h
        · split at h
          · exact Except.noConfusion h
          · split at h
            · exact Except.noConfusion h
            · next d s2 hf =>
              split at h
              · exact Except.noConfusion h
              · next s3 hr =>
                cases h
                have hm := load_file_merged hf
                have h3 := ih _ _ _ hr (by rw [hm]; exact hn)
                exact h3
    | fields fn d =>
      cases d with
      | nil => simp only [run] at h; cases h; exact hn
      | cons kv rest =>
        obtain ⟨key, v⟩ := kv
        simp only [run] at h
        split_ifs at h with hk
        · split at h
          · next a =>
            split at h
            · exact Except.noConfusion h
            · next s1 h1 => exact ih _ _ _ h (ih _ _ _ h1 hn)
          · exact Except.noConfusion h
        · split at h
          · exact Except.noConfusion h
          · exact Except.noConfusion h
          · next v1 h1 happ =>
            exact ih _ _ _ h (nodup_keys_mergedSet _ _ hn)
    | imports ns =>
      cases ns with
      | nil => simp only [run] at h; cases h; exact hn
      | cons m ms =>
        simp only [run] at h
        split at h
        · exact Except.noConfusion h
        · next s1 h1 => exact ih _ _ _ h (ih _ _ _ h1 hn)

theorem stepDefault_keys {env : Env} {tname k : String} {s s' : St}
    (h : stepDefault env tname k s = .ok s') :
    (k ∈ keys s.merged ∧ s' = s) ∨
      (k ∉ keys s.merged ∧
        ∃ v h1, s' = { s with heap := h1, merged := mergedSet s.merged k v }) := by
  unfold stepDefault at h
  split_ifs at h with hk
  · cases h; exact .inl ⟨hk, rfl⟩
  · split at h
    · exact Except.noConfusion h
    · exact Except.noConfusion h
    · next v h1 happ => cases h; exact .inr ⟨hk, v, h1, rfl⟩

theorem stepDefault_keys_after {env : Env} {tname k : String} {s s' : St}
    (h : stepDefault env tname k s = .ok s') :
    keys s'.merged = keys s.merged ∨
      (k ∉ keys s.merged ∧ keys s'.merged = keys s.merged ++ [k]) := by
  rcases stepDefault_keys h with ⟨hk, rfl⟩ | ⟨hk, v, h1, rfl⟩
  · exact .inl rfl
  · exact .inr ⟨hk, by simp [keys_mergedSet, hk]⟩

theorem stepDefault_mem {env : Env} {tname k : String} {s s' : St}
    (h : stepDefault env tname k s = .ok s') : k ∈ keys s'.merged := by
  rcases stepDefault_keys h with ⟨hk, rfl⟩ | ⟨hk, v, h1, rfl⟩
  · exact hk
  · simp [keys_mergedSet, hk]

theorem stepDefault_mono {env : Env} {tname k k0 : String} {s s' : St}
    (h : stepDefault env tname k s = .ok s') (hm : k0 ∈ keys s.merged) :
    k0 ∈ keys s'.merged := by
  rcases stepDefault_keys_after h with he | ⟨hk, he⟩ <;> rw [he] <;> simp [hm]

theorem stepDefault_not_mem {env : Env} {tname k k0 : String} {s s' : St}
    (h : stepDefault env tname k s = .ok s') (hne : k0 ≠ k)
    (hm : k0 ∉ keys s.merged) : k0 ∉ keys s'.merged := by
  rcases stepDefault_keys_after h with he | ⟨hk, he⟩ <;> rw [he] <;>
    simp [hm, hne]

theorem stepDefault_nodup {env : Env} {tname k : String} {s s' : St}
    (h : stepDefault env tname k s = .ok s') (hn : (keys s.merged).Nodup) :
    (keys s'.merged).Nodup := by
  rcases stepDefault_keys h with ⟨hk, rfl⟩ | ⟨hk, v, h1, rfl⟩
  · exact hn
  · exact nodup_keys_mergedSet _ _ hn

theorem foldDefaults_mono {env : Env} {tname : String} :
    ∀ (l : List String) (s s' : St) (k0 : String),
      foldDefaults env tname l s = .ok s' → k0 ∈ keys s.merged →
      k0 ∈ keys s'.merged := by
  intro l
  induction l with
  | nil => intro s s' k0 h hm; cases h; exact hm
  | cons k rest ih =>
    intro s s' k0 h hm
    simp only [foldDefaults] at h
    split at h
    · exact Except.noConfusion h
    · next s1 h1 => exact ih _ _ _ h (stepDefault_mono h1 hm)

theorem foldDefaults_mem {env : Env} {tname : String} :
    ∀ (l : List String) (s s' : St) (k0 : String),
      foldDefaults env tname l s = .ok s' → k0 ∈ l → k0 ∈ keys s'.merged := by
  intro l
  induction l with
  | nil => intro s s' k0 _ hm; cases hm
  | cons k rest ih =>
    intro s s' k0 h hm
    simp only [foldDefaults] at h
    split at h
    · exact Except.noConfusion h
    · next s1 h1 =>
      rcases List.mem_cons.mp hm with rfl | hm'
      · exact foldDefaults_mono _ _ _ _ h (stepDefault_mem h1)
      · exact ih _ _ _ h hm'

theorem foldDefaults_not_mem {env : Env} {tname : String} :
    ∀ (l : List String) (s s' : St) (k0 : String),
      foldDefaults env tname l s = .ok s' → k0 ∉ l → k0 ∉ keys s.merged →
      k0 ∉ keys s'.merged := by
  intro l
  induction l with
  | nil => intro s s' k0 h _ hm; cases h; exact hm
  | cons k rest ih =>
    intro s s' k0 h hl hm
    simp only [foldDefaults] at h
    split at h
    · exact Except.noConfusion h
    · next s1 h1 =>
      have hne : k0 ≠ k := fun he => hl (he ▸ List.mem_cons_self k rest)
      exact ih _ _ _ h (fun hr => hl (List.mem_cons_of_mem k hr))
        (stepDefault_not_mem h1 hne hm)

theorem foldDefaults_nodup {env : Env} {tname : String} :
    ∀ (l : List String) (s s' : St),
      foldDefaults env tname l s = .ok s' → (keys s.merged).Nodup →
      (keys s'.merged).Nodup := by
  intro l
  induction l with
  | nil => intro s s' h hn; cases h; exact hn
  | cons k rest ih =>
    intro s s' h hn
    simp only [foldDefaults] at h
    split at h
    · exact Except.noConfusion h
    · next s1 h1 => exact ih _ _ h (stepDefault_nodup h1 hn)

theorem foldDefaults_append (env : Env) (tname : String) (l1 l2 : List String) :
    ∀ s : St, foldDefaults env tname (l1 ++ l2) s =
      match foldDefaults env tname l1 s with
      | .error e => .error e
      | .ok s1 => foldDefaults env tname l2 s1 := by
  induction l1 with
  | nil => intro s; simp [foldDefaults]
  | cons k rest ih =>
    intro s
    simp only [List.cons_append, foldDefaults]
    cases h : stepDefault env tname k s with
    | error e => simp
    | ok s1 => simp [ih]

theorem stepDefault_present (env : Env) (tname k : String) (s : St)
    (hk : k ∈ keys s.merged) : stepDefault env tname k s = .ok s := by
  unfold stepDefault
  rw [if_pos hk]

theorem foldDefaults_cons_present (env : Env) (tname k : String) (s : St)
    (hk : k ∈ keys s.merged) (l : List String) :
    foldDefaults env tname (k :: l) s = foldDefaults env tname l s := by
  show (match stepDefault env tname k s with
        | Except.error e => Except.error e
        | Except.ok s1 => foldDefaults env tname l s1) = _
  rw [stepDefault_present env tname k s hk]

theorem foldDefaults_cons_error (env : Env) (tname k : String) (s : St) (e : Err)
    (hk : stepDefault env tname k s = .error e) (l : List String) :
    foldDefaults env tname (k :: l) s = .error e := by
  show (match stepDefault env tname k s with
        | Except.error e => Except.error e
        | Except.ok s1 => foldDefaults env tname l s1) = _
  rw [hk]

/-- Defaulting `arch` fails: its checker asserts `val is not None`. -/
theorem stepDefault_arch_missing (env : Env) (tname : String) (s : St)
    (hk : "arch" ∉ keys s.merged) :
    stepDefault env tname "arch" s =
      .error (.validationError (some (pyRepr "arch" ++ " not defined for " ++ tname))) := by
  unfold stepDefault
  rw [if_neg hk]
  rfl

/-- Defaulting `cpp` fails: `check_cpp` asserts `isinstance(val, list)` with
message `type(val)`, and the defaulting pass passes `None`. -/
theorem stepDefault_cpp_missing (env : Env) (tname : String) (s : St)
    (hk : "cpp" ∉ keys s.merged) :
    stepDefault env tname "cpp" s = .error (.validationError (some "NoneType")) := by
  unfold stepDefault
  rw [if_neg hk]
  rfl

/-- Defaulting an override-family field (`default_char_sign`) fails:
the checker asserts `val is not None`. -/
theorem stepDefault_dcs_missing (env : Env) (tname : String) (s : St)
    (hk : "default_char_sign" ∉ keys s.merged) :
    stepDefault env tname "default_char_sign" s =
      .error (.validationError
        (some (pyRepr "default_char_sign" ++ " not defined for " ++ tname))) := by
  unfold stepDefault
  rw [if_neg hk]
  rfl

/-- Defaulting `endian` fails: its checker asserts `val is not None`. -/
theorem stepDefault_endian_missing (env : Env) (tname : String) (s : St)
    (hk : "endian" ∉ keys s.merged) :
    stepDefault env tname "endian" s =
      .error (.validationError (some (pyRepr "endian" ++ " not defined"))) := by
  unfold stepDefault
  rw [if_neg hk]
  rfl

/-- Defaulting `variants` succeeds and allocates the fresh list
`[self._name]` at the end of the heap. -/
theorem stepDefault_variants_missing (env : Env) (tname : String) (s : St)
    (hk : "variants" ∉ keys s.merged) :
    stepDefault env tname "variants" s =
      .ok { s with heap := s.heap ++ [[tname]],
                   merged := mergedSet s.merged "variants" (.vlist s.heap.length) } := by
  unfold stepDefault
  rw [if_neg hk]
  rfl

theorem invariantCheck_ok {tname : String} {s s' : St}
    (h : invariantCheck tname s = .ok s') : s' = s := by
  unfold invariantCheck at h
  repeat' first
    | exact Except.noConfusion h
    | (cases h; rfl)
    | split at h

theorem verify_ok {env : Env} {tname : String} {s s' : St}
    (h : verify env tname s = .ok s') :
    foldDefaults env tname registered_fields s = .ok s' ∧
      invariantCheck tname s' = .ok s' := by
  unfold verify at h
  split at h
  · exact Except.noConfusion h
  · next s1 hf =>
    have he := invariantCheck_ok h
    subst he
    exact ⟨hf, h⟩

theorem verify_fold_error {env : Env} {tname : String} {s : St} {e : Err}
    (h : foldDefaults env tname registered_fields s = .error e) :
    verify env tname s = .error e := by
  simp [verify, h]

theorem verify_all_registered {env : Env} {tname : String} {s s' : St}
    (h : verify env tname s = .ok s') (hn : (keys s.merged).Nodup) :
    ∀ k ∈ registered_fields, (keys s'.merged).count k = 1 := by
  obtain ⟨hf, _⟩ := verify_ok h
  intro k hk
  have hmem := foldDefaults_mem _ _ _ _ hf hk
  have hnd := foldDefaults_nodup _ _ _ hf hn
  exact List.count_eq_one_of_mem hnd hmem

/-! ## Fixed states used by witnesses -/

/-- A merger state whose `_done` set already contains `misc/c`. -/
def stDone : St :=
  { heap := [], cache := [], merged := [], done := ["misc/c"], blacklist := [] }

/-- A merger state whose `_blacklist` stack already contains `misc/q`. -/
def stCycle : St :=
  { heap := [], cache := [], merged := [], done := [], blacklist := ["misc/q"] }

/-- A merger state in which every registered field is already merged and the
variant list has one element. -/
def sFull : St :=
  { heap := [["t"]], cache := [],
    merged := [("arch", .vnone), ("cpp", .vnone), ("default_char_sign", .vnone),
      ("endian", .vnone), ("freestanding", .vbool false), ("int", .vnone),
      ("kernel", .vnone), ("libc", .vnone), ("long", .vnone), ("long_long", .vnone),
      ("obj", .vnone), ("ptr", .vnone), ("reg", .vnone), ("short", .vnone),
      ("size", .vnone), ("triples", .vnone), ("variant_flags", .vstr ""),
      ("variants", .vlist 0)],
    done := [], blacklist := [] }

/-- A merger state in which every registered field except `variants` is
already merged. -/
def s17 : St :=
  { heap := [], cache := [],
    merged := [("arch", .vnone), ("cpp", .vnone), ("default_char_sign", .vnone),
      ("endian", .vnone), ("freestanding", .vbool false), ("int", .vnone),
      ("kernel", .vnone), ("libc", .vnone), ("long", .vnone), ("long_long", .vnone),
      ("obj", .vnone), ("ptr", .vnone), ("reg", .vnone), ("short", .vnone),
      ("size", .vnone), ("triples", .vnone), ("variant_flags", .vstr "")],
    done := [], blacklist := [] }

/-- `s17` after `verify` defaults `variants` for target name `t`. -/
def s18 : St :=
  { heap := [["t"]], cache := [],
    merged := s17.merged ++ [("variants", .vlist 0)],
    done := [], blacklist := [] }

/-! ## The claims -/

/-- C1: the claim says cached documents are immutable and a second
sequential `load(B)` on a shared cache produces the record a fresh cache
would.  The code violates both: `check_cpp` extends the previously merged
`cpp` list in place, and that list is the one stored inside the cached
`misc/default` document, so after `load('triple/a')` the cached document's
`cpp` value has mutated from `[DEF]` to `[DEF, AAA]` and the shared-cache
`load('triple/b')` merges `cpp = [DEF, AAA]` where a fresh cache gives
`[DEF]`. -/
theorem c1_cache_mutated_by_cpp_extend :
    isOk loadA = true ∧
    cachedDocVal (cacheOf loadA) "misc/default.yml" "cpp" = some (.rlist ["DEF", "AAA"]) ∧
    resultVal (load envC1 40 "triple/b" (cacheOf loadA)) "cpp" = some (.rlist ["DEF", "AAA"]) ∧
    resultVal (load envC1 40 "triple/b" ⟨[], []⟩) "cpp" = some (.rlist ["DEF"]) := by
  refine ⟨by decide, by decide, by decide, by decide⟩

/-- C2 (amended): when no document defines `cpp`, the finalize defaulting
pass does not fill it with the empty list; `check_cpp` is invoked with
`val = None`, its `isinstance(val, list)` assertion fails, and the load
fails with a validation error. -/
theorem c2_missing_cpp_fails_finalize (env : Env) (tname : String) (s : St)
    (hk : "cpp" ∉ keys s.merged) :
    isValidationError (verify env tname s) = true := by
  by_cases ha : "arch" ∈ keys s.merged
  · have hfold : foldDefaults env tname registered_fields s =
        .error (.validationError (some "NoneType")) := by
      rw [show registered_fields = "arch" :: "cpp" ::
            ["default_char_sign", "endian", "freestanding", "int", "kernel", "libc",
             "long", "long_long", "obj", "ptr", "reg", "short", "size", "triples",
             "variant_flags", "variants"] from rfl]
      rw [foldDefaults_cons_present env tname "arch" s ha]
      exact foldDefaults_cons_error env tname "cpp" s _
        (stepDefault_cpp_missing env tname s hk) _
    rw [verify_fold_error hfold]
    rfl
  · have hfold : foldDefaults env tname registered_fields s =
        .error (.validationError (some (pyRepr "arch" ++ " not defined for " ++ tname))) := by
      rw [show registered_fields = "arch" ::
            ["cpp", "default_char_sign", "endian", "freestanding", "int", "kernel", "libc",
             "long", "long_long", "obj", "ptr", "reg", "short", "size", "triples",
             "variant_flags", "variants"] from rfl]
      exact foldDefaults_cons_error env tname "arch" s _
        (stepDefault_arch_missing env tname s ha) _
    rw [verify_fold_error hfold]
    rfl

/-- C2 witness: a fresh merger state has no `cpp`, and `verify` fails on it
with a validation error. -/
theorem c2_witness : isValidationError (verify env0 "t" (initSt ⟨[], []⟩)) = true :=
  c2_missing_cpp_fails_finalize env0 "t" (initSt ⟨[], []⟩) (by decide)

/-- C2 counterexample: a complete target that never defines `cpp` fails
(with the `NoneType` validation error); the claim says the load succeeds
with `cpp = []`. -/
theorem c2_counterexample :
    resultErr (load envC2 40 "triple/c2" ⟨[], []⟩) =
      some (.validationError (some "NoneType")) ∧
    resultVal (load envC2 40 "triple/c2" ⟨[], []⟩) "cpp" = none := by
  refine ⟨by decide, by decide⟩

/-- C3: the claim says the record maps `arch` to its validated value and a
second definition fails with a not-unique error.  The code's `check_arch`
has no `return`, so the record maps `arch` to `None`, the not-unique assert
never sees a previous value (`dict.get` returns `None` for the stored
`None`), and a load whose import chain defines `arch` twice (in `arch/x`
then `arch/y`) succeeds. -/
theorem c3_arch_redefinition_accepted :
    isOk (load envC3 40 "triple/d" ⟨[], []⟩) = true ∧
    resultVal (load envC3 40 "triple/d" ⟨[], []⟩) "arch" = some .rnone := by
  refine ⟨by decide, by decide⟩

/-- C4 (amended): a successful `load` returns a record containing every
registered field exactly once; the failure side of the claim is refuted by
`c4_counterexample` (an empty `triples` list fails with an index error,
which is none of the five named kinds). -/
theorem c4_success_has_all_registered_fields (env : Env) (fuel : Nat)
    (name0 : String) (cs : CacheSt) (k : String) (hk : k ∈ registered_fields)
    (hok : isOk (load env fuel name0 cs) = true) :
    (keys (recordOf (load env fuel name0 cs))).count k = 1 := by
  cases hr : load env fuel name0 cs with
  | error e => rw [hr] at hok; simp [isOk] at hok
  | ok s =>
    simp only [recordOf]
    unfold load at hr
    split at hr
    · exact Except.noConfusion hr
    · next s1 h1 =>
      split at hr
      · exact Except.noConfusion hr
      · next s2 h2 =>
        have hn0 : (keys (initSt cs).merged).Nodup := by simp [initSt, keys]
        have hn1 := run_preserves_nodup env (basename (stripYml name0)) _ _ _ _ h1 hn0
        have hn2 := run_preserves_nodup env (basename (stripYml name0)) _ _ _ _ h2 hn1
        exact verify_all_registered hr hn2 k hk

/-- C4 witness: a concrete successful load, in whose record `endian` occurs
exactly once. -/
theorem c4_witness :
    isOk (load envC1 40 "triple/a" ⟨[], []⟩) = true ∧
    (keys (recordOf (load envC1 40 "triple/a" ⟨[], []⟩))).count "endian" = 1 :=
  ⟨by decide, c4_success_has_all_registered_fields envC1 40 "triple/a" ⟨[], []⟩
    "endian" (by decide) (by decide)⟩

/-- C4 counterexample: a document whose `triples` value is the empty list
makes `load` fail with an index error (`val[0]` out of bounds), which is
not one of ParseError, CycleError, UnknownFieldError, ValidationError,
InvariantError. -/
theorem c4_counterexample :
    resultErr (load envTE 40 "triple/e" ⟨[], []⟩) =
      some (.indexError (some "list index out of range")) := by
  decide

/-- C5: a name already in `resolved` (`_done`) is returned immediately with
the state unchanged — its field effects are applied exactly once — and a
diamond (`triple/t` imports `misc/a` and `misc/b`, both importing `misc/c`,
which defines the unique-optional `variant_flags`) loads successfully with
`misc/c`'s field folded in once. -/
theorem c5_resolved_import_is_noop :
    (∀ (env : Env) (tname : String) (fuel : Nat) (name : String) (s : St),
        name ∈ s.done → run env tname (fuel + 1) (.doc name) s = .ok s) ∧
    isOk (load envC5 40 "triple/t" ⟨[], []⟩) = true ∧
    resultVal (load envC5 40 "triple/t" ⟨[], []⟩) "variant_flags" =
      some (.rstr "vf") := by
  refine ⟨?_, by decide, by decide⟩
  intro env tname fuel name s hmem
  simp [run, hmem]

/-- C5 witness. -/
theorem c5_witness : run envC5 "t" 5 (.doc "misc/c") stDone = .ok stDone :=
  c5_resolved_import_is_noop.1 envC5 "t" 4 "misc/c" stDone (by decide)

/-- C6: resolving a name that is not yet resolved but is on the active
stack fails with a CycleError, and both a self-import and a pair of
mutually importing documents fail the whole load with a CycleError. -/
theorem c6_active_revisit_is_cycle :
    (∀ (env : Env) (tname : String) (fuel : Nat) (name : String) (s : St),
        name ∉ s.done → name.data.contains '.' = false → name ∈ s.blacklist →
        run env tname (fuel + 1) (.doc name) s = .error (.cycleError none)) ∧
    resultErr (load envC6a 40 "triple/s" ⟨[], []⟩) = some (.cycleError none) ∧
    resultErr (load envC6b 40 "misc/x" ⟨[], []⟩) = some (.cycleError none) := by
  refine ⟨?_, by decide, by decide⟩
  intro env tname fuel name s h1 h2 h3
  simp at h2
  simp [run, h1, h2, h3]

/-- C6 witness. -/
theorem c6_witness : run env0 "t" 3 (.doc "misc/q") stCycle = .error (.cycleError none) :=
  c6_active_revisit_is_cycle.1 env0 "t" 2 "misc/q" stCycle (by decide) (by decide)
    (by decide)

/-- C7: after a successful finalize the record satisfies the cross-field
invariant check; a target with a two-element variant list and neither
signal fails with an InvariantError; setting `freestanding` or
`variant_flags` makes the same target load successfully. -/
theorem c7_variants_need_signal :
    (∀ (env : Env) (tname : String) (s s' : St),
        verify env tname s = .ok s' → invariantCheck tname s' = .ok s') ∧
    resultErr (load envC7f 40 "triple/v" ⟨[], []⟩) =
      some (.invariantError (some "v")) ∧
    isOk (load envC7a 40 "triple/v" ⟨[], []⟩) = true ∧
    isOk (load envC7b 40 "triple/v" ⟨[], []⟩) = true := by
  refine ⟨?_, by decide, by decide, by decide⟩
  intro env tname s s' h
  exact (verify_ok h).2

/-- C7 witness. -/
theorem c7_witness : invariantCheck "t" sFull = .ok sFull :=
  c7_variants_need_signal.1 env0 "t" sFull sFull rfl

/-- C8 (amended): `endian` is never defaulted — a record without it fails
finalize with a validation error; `little` is accepted and returned
unchanged (and round-trips into the record of a full load); any value
outside the enumerated set, e.g. `middle`, fails validation immediately,
but through the bare `assert val in {'little', 'big'}`, whose error carries
no message naming the offending value. -/
theorem c8_endian_enum :
    (∀ (env : Env) (tname : String) (s : St), "endian" ∉ keys s.merged →
        isValidationError (verify env tname s) = true) ∧
    check_endian "endian" (some (.vstr "little")) none = .ok (.vstr "little") ∧
    check_endian "endian" (some (.vstr "middle")) none =
      .error (.validationError none) ∧
    resultVal loadA "endian" = some (.rstr "little") := by
  refine ⟨?_, rfl, rfl, by decide⟩
  intro env tname s hk
  by_cases h1 : "arch" ∈ keys s.merged
  · by_cases h2 : "cpp" ∈ keys s.merged
    · by_cases h3 : "default_char_sign" ∈ keys s.merged
      · have hfold : foldDefaults env tname registered_fields s =
            .error (.validationError (some (pyRepr "endian" ++ " not defined"))) := by
          rw [show registered_fields = "arch" :: "cpp" :: "default_char_sign" ::
                "endian" :: ["freestanding", "int", "kernel", "libc", "long",
                "long_long", "obj", "ptr", "reg", "short", "size", "triples",
                "variant_flags", "variants"] from rfl]
          rw [foldDefaults_cons_present env tname "arch" s h1]
          rw [foldDefaults_cons_present env tname "cpp" s h2]
          rw [foldDefaults_cons_present env tname "default_char_sign" s h3]
          exact foldDefaults_cons_error env tname "endian" s _
            (stepDefault_endian_missing env tname s hk) _
        rw [verify_fold_error hfold]
        rfl
      · have hfold : foldDefaults env tname registered_fields s =
            .error (.validationError
              (some (pyRepr "default_char_sign" ++ " not defined for " ++ tname))) := by
          rw [show registered_fields = "arch" :: "cpp" :: "default_char_sign" ::
                ["endian", "freestanding", "int", "kernel", "libc", "long",
                "long_long", "obj", "ptr", "reg", "short", "size", "triples",
                "variant_flags", "variants"] from rfl]
          rw [foldDefaults_cons_present env tname "arch" s h1]
          rw [foldDefaults_cons_present env tname "cpp" s h2]
          exact foldDefaults_cons_error env tname "default_char_sign" s _
            (stepDefault_dcs_missing env tname s h3) _
        rw [verify_fold_error hfold]
        rfl
    · have hfold : foldDefaults env tname registered_fields s =
          .error (.validationError (some "NoneType")) := by
        rw [show registered_fields = "arch" :: "cpp" ::
              ["default_char_sign", "endian", "freestanding", "int", "kernel", "libc",
               "long", "long_long", "obj", "ptr", "reg", "short", "size", "triples",
               "variant_flags", "variants"] from rfl]
        rw [foldDefaults_cons_present env tname "arch" s h1]
        exact foldDefaults_cons_error env tname "cpp" s _
          (stepDefault_cpp_missing env tname s h2) _
      rw [verify_fold_error hfold]
      rfl
  · have hfold : foldDefaults env tname registered_fields s =
        .error (.validationError (some (pyRepr "arch" ++ " not defined for " ++ tname))) := by
      rw [show registered_fields = "arch" ::
            ["cpp", "default_char_sign", "endian", "freestanding", "int", "kernel", "libc",
             "long", "long_long", "obj", "ptr", "reg", "short", "size", "triples",
             "variant_flags", "variants"] from rfl]
      exact foldDefaults_cons_error env tname "arch" s _
        (stepDefault_arch_missing env tname s h1) _
    rw [verify_fold_error hfold]
    rfl

/-- C8 witness. -/
theorem c8_witness : isValidationError (verify env0 "t" (initSt ⟨[], []⟩)) = true :=
  c8_endian_enum.1 env0 "t" (initSt ⟨[], []⟩) (by decide)

/-- C8 counterexample: the out-of-enum value `middle` is rejected by a bare
assert — the resulting error carries no message, so the offending value is
not named in the error, contrary to the claim. -/
theorem c8_counterexample :
    check_endian "endian" (some (.vstr "middle")) none =
      .error (.validationError none) := rfl

/-- C9: when `variants` is absent at finalize, the defaulting pass stores
the freshly allocated one-element list `[self._name]`, so the defaulted
variant list is `[tname]` (length one, never empty) and the record passes
the cross-field invariant check. -/
theorem c9_variants_default_is_singleton (env : Env) (tname : String) (s s' : St)
    (hk : "variants" ∉ keys s.merged) (h : verify env tname s = .ok s') :
    recordVal s' "variants" = some (.rlist [tname]) ∧
      invariantCheck tname s' = .ok s' := by
  obtain ⟨hf, hinv⟩ := verify_ok h
  rw [show registered_fields =
        ["arch", "cpp", "default_char_sign", "endian", "freestanding", "int", "kernel",
         "libc", "long", "long_long", "obj", "ptr", "reg", "short", "size", "triples",
         "variant_flags"] ++ ["variants"] from rfl] at hf
  rw [foldDefaults_append] at hf
  cases hpre : foldDefaults env tname
      ["arch", "cpp", "default_char_sign", "endian", "freestanding", "int", "kernel",
       "libc", "long", "long_long", "obj", "ptr", "reg", "short", "size", "triples",
       "variant_flags"] s with
  | error e => rw [hpre] at hf; exact Except.noConfusion hf
  | ok s1 =>
    rw [hpre] at hf
    have hk1 : "variants" ∉ keys s1.merged :=
      foldDefaults_not_mem _ _ _ _ hpre (by decide) hk
    simp only [foldDefaults] at hf
    rw [stepDefault_variants_missing env tname s1 hk1] at hf
    cases hf
    constructor
    · simp [recordVal, slookup_mergedSet_self, resolveVal, heapGet, getD_append_length]
    · exact hinv

/-- C9 witness: defaulting `variants` on a state holding the other
seventeen fields stores exactly `[t]`, and the invariant check passes. -/
theorem c9_witness :
    recordVal s18 "variants" = some (.rlist ["t"]) ∧
      invariantCheck "t" s18 = .ok s18 :=
  c9_variants_default_is_singleton env0 "t" s17 s18 (by decide) rfl

/-- C10: `check_triples` on an empty list with no previous merged value
indexes `val[0]` out of bounds and fails with an index error, not a named
validation failure; a load whose document carries `triples: []` fails the
same way. -/
theorem c10_empty_triples_index_error :
    (∀ (tname : String) (bl : List String) (hp : Heap) (a : Nat),
        heapGet hp a = [] →
        check_triples tname bl hp (some (.vlist a)) none =
          .error (.indexError (some "list index out of range"))) ∧
    resultErr (load envTE 40 "triple/e" ⟨[], []⟩) =
      some (.indexError (some "list index out of range")) := by
  refine ⟨?_, by decide⟩
  intro tname bl hp a hempty
  simp [check_triples, hempty]

/-- C10 witness. -/
theorem c10_witness :
    check_triples "t" [] [] (some (.vlist 0)) none =
      .error (.indexError (some "list index out of range")) :=
  c10_empty_triples_index_error.1 "t" [] [] 0 rfl

end Targets
